import Mathlib

/-!
Verification of the prioritized experience replay buffer and the actor-critic
fine-tuning step of the `robotics_learning` repository
(`reinforcement_with_latent_space/train.py`, `model.py`).

The class `PrioritizedReplayBuffer` is imported by `train.py` from a module
`prioritized_replay_buffer` whose source file is not part of the repository
snapshot; its behaviour is modelled from the specification (marked
`Modelled from the spec:` below).  Everything else is embedded directly from
the Python source.
-/

namespace RoboticsLearning

/-- Modelled from the spec: one transition record, with the seven fields that
`AgentTrainer.init_buffer` (train.py line 145) actually passes to `store`:
`(vision, proprioception, action, reward, next_vision, next_proprioception, done)`.
The structured `state` of the spec is split into `vision` + `proprioception`. -/
structure Transition (V P A : Type) where
  vision : V
  proprioception : P
  action : A
  reward : ℚ
  next_vision : V
  next_proprioception : P
  done : Bool

/-- Modelled from the spec: the missing `prioritized_replay_buffer` module's
buffer state.  `data` is the circular Transition Store (`none` = slot never
written), `priorities` the Priority Index leaf values, `maxPriority` the
running maximum used for optimistic initialization, `writeCursor` the
monotonically advancing cursor (the write slot is `writeCursor % capacity`),
and `size` the number of valid entries, capped at `capacity`. -/
structure PrioritizedReplayBuffer (α : Type) where
  capacity : Nat
  alpha : ℚ
  beta : ℚ
  epsilon : ℚ
  data : Nat → Option α
  priorities : Nat → ℚ
  maxPriority : ℚ
  writeCursor : Nat
  size : Nat

namespace PrioritizedReplayBuffer

/-- Modelled from the spec: a freshly constructed buffer — empty store,
all-zero priority leaves, default max-priority 1.0, cursor and size at 0. -/
def init (α : Type) (capacity : Nat) (alpha beta epsilon : ℚ) :
    PrioritizedReplayBuffer α :=
  { capacity := capacity
    alpha := alpha
    beta := beta
    epsilon := epsilon
    data := fun _ => none
    priorities := fun _ => 0
    maxPriority := 1
    writeCursor := 0
    size := 0 }

/-- Modelled from the spec: `store` computes slot = `write_cursor mod capacity`,
writes the transition there, sets its priority to the current `max_priority()`
(or the default 1.0 if the buffer is empty), advances `write_cursor`, and
increments `size` up to `capacity`. -/
def store (buf : PrioritizedReplayBuffer α) (t : α) : PrioritizedReplayBuffer α :=
  let slot := buf.writeCursor % buf.capacity
  let p := if buf.size = 0 then 1 else buf.maxPriority
  { buf with
    data := fun s => if s = slot then some t else buf.data s
    priorities := fun s => if s = slot then p else buf.priorities s
    maxPriority := max buf.maxPriority p
    writeCursor := buf.writeCursor + 1
    size := min (buf.size + 1) buf.capacity }

/-- Folding `store` over a list of transitions, oldest first. -/
def storeAll (buf : PrioritizedReplayBuffer α) (l : List α) :
    PrioritizedReplayBuffer α :=
  l.foldl store buf

/-- Modelled from the spec: the Priority Index point update `set(slot, priority)`
with the running-maximum tracking of `max_priority()`. -/
def setPriority (buf : PrioritizedReplayBuffer α) (slot : Nat) (p : ℚ) :
    PrioritizedReplayBuffer α :=
  { buf with
    priorities := fun s => if s = slot then p else buf.priorities s
    maxPriority := max buf.maxPriority p }

/-- Modelled from the spec: `update_priorities(slot_ids, td_errors)` — for each
`(slot, error)` pair, in order, sets the new priority to `|error| + ε`. -/
def updatePriorities (buf : PrioritizedReplayBuffer α)
    (slotIds : List Nat) (tdErrors : List ℚ) : PrioritizedReplayBuffer α :=
  (slotIds.zip tdErrors).foldl
    (fun b se => b.setPriority se.1 (|se.2| + b.epsilon)) buf

/-- Modelled from the spec: sum-tree leaf `i` holds `priority[i]^alpha`. -/
noncomputable def leafMass (buf : PrioritizedReplayBuffer α) (s : Nat) : ℝ :=
  ((buf.priorities s : ℝ)) ^ (buf.alpha : ℝ)

/-- Modelled from the spec: `total()` — the root sum of the sum-tree, i.e. the
sum of `priority[i]^alpha` over the `capacity` leaves. -/
noncomputable def total (buf : PrioritizedReplayBuffer α) : ℝ :=
  ((List.range buf.capacity).map buf.leafMass).sum

/-- Modelled from the spec: the sampling probability actually used,
`P(i) = priority[i]^alpha / total()`. -/
noncomputable def samplingProb (buf : PrioritizedReplayBuffer α) (s : Nat) : ℝ :=
  buf.leafMass s / buf.total

/-- Modelled from the spec: the un-normalized importance weight
`(N · P(i))^(-beta)` with `N = size` (valid entries, not capacity). -/
noncomputable def rawWeight (buf : PrioritizedReplayBuffer α) (s : Nat) : ℝ :=
  ((buf.size : ℝ) * buf.samplingProb s) ^ (-(buf.beta : ℝ))

/-- Maximum of a list of reals (0 for the empty list); the batch maximum used
to normalize the importance weights. -/
noncomputable def foldrMax (l : List ℝ) : ℝ := l.foldr max 0

/-- Modelled from the spec: the importance weights of a sampled batch — each
raw weight divided by the batch's own maximum raw weight. -/
noncomputable def importanceWeights (buf : PrioritizedReplayBuffer α)
    (slots : List Nat) : List ℝ :=
  slots.map fun s => buf.rawWeight s / foldrMax (slots.map buf.rawWeight)

end PrioritizedReplayBuffer

/-- The nine parallel sequences unpacked from `sample_batch()` at its only call
site, train.py line 150: `vision, proprioception, next_vision,
next_proprioception, action, reward, done, weights, indices`. -/
structure SampleBatchResult (V P A : Type) where
  vision : List (Option V)
  proprioception : List (Option P)
  next_vision : List (Option V)
  next_proprioception : List (Option P)
  action : List (Option A)
  reward : List (Option ℚ)
  done : List (Option Bool)
  weights : List ℝ
  indices : List Nat

namespace PrioritizedReplayBuffer

/-- Modelled from the spec: `sample_batch` — given the slots drawn by the
Priority Index (one fresh draw per batch element), retrieves each transition
from the Transition Store, computes the importance weights, and returns the
parallel sequences together with the slot ids. -/
noncomputable def sampleBatch (buf : PrioritizedReplayBuffer (Transition V P A))
    (slots : List Nat) : SampleBatchResult V P A :=
  { vision := slots.map fun s => (buf.data s).map Transition.vision
    proprioception := slots.map fun s => (buf.data s).map Transition.proprioception
    next_vision := slots.map fun s => (buf.data s).map Transition.next_vision
    next_proprioception := slots.map fun s => (buf.data s).map Transition.next_proprioception
    action := slots.map fun s => (buf.data s).map Transition.action
    reward := slots.map fun s => (buf.data s).map Transition.reward
    done := slots.map fun s => (buf.data s).map Transition.done
    weights := buf.importanceWeights slots
    indices := slots }

end PrioritizedReplayBuffer

/-- The variables appearing at the buffer-facing call sites of
`AgentTrainer` (train.py). -/
inductive TrainerField
  | goal
  | vision
  | proprioception
  | action
  | reward
  | next_vision
  | next_proprioception
  | done
  | weights
  | indices
deriving DecidableEq

/-- The argument tuple of the `store` call in `AgentTrainer.init_buffer`
(train.py line 145):
`store(vision, proprioception, action, reward, next_vision, next_proprioception, done)`. -/
def initBufferStoreArgs : List TrainerField :=
  [TrainerField.vision, TrainerField.proprioception, TrainerField.action,
   TrainerField.reward, TrainerField.next_vision,
   TrainerField.next_proprioception, TrainerField.done]

/-- The variables the `sample_batch()` result is unpacked into in
`AgentTrainer.fine_tune` (train.py line 150). -/
def fineTuneSampleBatchTargets : List TrainerField :=
  [TrainerField.vision, TrainerField.proprioception, TrainerField.next_vision,
   TrainerField.next_proprioception, TrainerField.action, TrainerField.reward,
   TrainerField.done, TrainerField.weights, TrainerField.indices]

/-- Number of arguments passed to `sample_batch` at that call site: none. -/
def fineTuneSampleBatchArgCount : Nat := 0

/-- Embeds `AgentTrainer.init_buffer` (train.py lines 142-145): forwards its seven
arguments to `pri_buffer.store` as one transition record. -/
def init_buffer (buf : PrioritizedReplayBuffer (Transition V P A))
    (vision : V) (proprioception : P) (action : A) (reward : ℚ)
    (next_vision : V) (next_proprioception : P) (done : Bool) :
    PrioritizedReplayBuffer (Transition V P A) :=
  buf.store ⟨vision, proprioception, action, reward,
    next_vision, next_proprioception, done⟩

/-- A Python keyword-argument record for the `PrioritizedReplayBuffer`
constructor: `none` marks a parameter not supplied at the call site. -/
structure BufferCtorCall where
  capacity : Option Nat
  alpha : Option ℚ
  beta : Option ℚ
  epsilon : Option ℚ

/-- The constructor call in `AgentTrainer.__init__` (train.py line 40):
`PrioritizedReplayBuffer(alpha=0.6, beta=0.4)` — only `alpha` and `beta`
are supplied. -/
def agentTrainerBufferCtorCall : BufferCtorCall :=
  { capacity := none, alpha := some (3/5), beta := some (2/5), epsilon := none }

/-- Modelled from the spec: resolving a constructor call against the
constructor's own default values (required, since the call supplies only some
of the four configuration parameters). -/
def BufferCtorCall.resolve (call : BufferCtorCall) (α : Type)
    (capacityDefault : Nat) (alphaDefault betaDefault epsilonDefault : ℚ) :
    PrioritizedReplayBuffer α :=
  PrioritizedReplayBuffer.init α (call.capacity.getD capacityDefault)
    (call.alpha.getD alphaDefault) (call.beta.getD betaDefault)
    (call.epsilon.getD epsilonDefault)

/-- Runtime values flowing through the modelled `fine_tune` body: tensors
versus `nn.Module` objects. -/
inductive PyVal
  | tensor
  | module
deriving DecidableEq

/-- Required positional parameters of `AgentTrainer.get_action`
(train.py line 68): `goal`, `vision`, `proprioception`; `greedy` has a
default. -/
def getActionRequiredParams : Nat := 3

/-- Positional arguments at the call `self.get_action(goal, vision)` inside
`td_target` (train.py line 134). -/
def tdTargetGetActionArgCount : Nat := 2

/-- The Python error message for a call that omits a required positional
argument. -/
def typeErrorMissingArg : String :=
  "TypeError: missing required positional argument"

/-- The Python error raised when `.backward()` is invoked on a loss module
object instead of a loss tensor. -/
def backwardOnModuleError : String :=
  "AttributeError: MSELoss object has no grad to backward"

/-- Python call semantics: supplying fewer positional arguments than required
raises `TypeError` before the callee's body runs. -/
def pyCall (required given : Nat) (body : Except String α) : Except String α :=
  if given < required then Except.error typeErrorMissingArg
  else body

/-- Embeds `td_target` (train.py lines 132-140): its first statement calls
`get_action` with two of the three required positional arguments. -/
def tdTargetRun : Except String PyVal :=
  pyCall getActionRequiredParams tdTargetGetActionArgCount
    (Except.ok PyVal.tensor)

/-- The call `torch.nn.MSELoss(current_q, target_q)` (train.py line 157) runs the
`MSELoss` constructor on two tensors: the result is a loss *module*, not a
loss tensor. -/
def mseLossCtor (_currentQ _targetQ : PyVal) : PyVal := PyVal.module

/-- Tensors define `.backward()`; invoking it on an `nn.Module`
raises. -/
def backwardOn : PyVal → Except String Unit
  | PyVal.tensor => Except.ok ()
  | PyVal.module => Except.error backwardOnModuleError

/-- Flattened parameter vectors of the four networks touched by
`fine_tune`'s optimizer and Polyak updates. -/
structure TrainerNets where
  actorParams : List ℚ
  criticParams : List ℚ
  targetActorParams : List ℚ
  targetCriticParams : List ℚ

/-- The Polyak soft update of train.py lines 178-181, element-wise over one
zipped pair of parameter vectors:
`target_param = tau * param + (1 - tau) * target_param`. -/
def softUpdate (tau : ℚ) (targetParams sourceParams : List ℚ) : List ℚ :=
  List.zipWith (fun t p => tau * p + (1 - tau) * t) targetParams sourceParams

/-- The target-network update loops at the end of `fine_tune`
(train.py lines 178-181), for the actor pair and the critic pair. -/
def fineTuneTargetUpdate (tau : ℚ) (nets : TrainerNets) : TrainerNets :=
  { nets with
    targetActorParams := softUpdate tau nets.targetActorParams nets.actorParams
    targetCriticParams := softUpdate tau nets.targetCriticParams nets.criticParams }

/-- Embeds `AgentTrainer.fine_tune` (train.py lines 148-181) as a fallible state
transformer over the network parameters: sample a batch (line 150), build the
TD target (line 152, which calls `get_action(goal, vision)`), build the critic
loss module (line 157), run `critic_loss.backward()` (line 169), take the
optimizer steps, and finish with the Polyak update (lines 178-181). -/
def fineTune (nets : TrainerNets) (tau : ℚ) : Except String TrainerNets := do
  let _batch ← Except.ok ()
  let targetQ ← tdTargetRun
  let currentQ := PyVal.tensor
  let criticLoss := mseLossCtor currentQ targetQ
  let _ ← backwardOn criticLoss
  Except.ok (fineTuneTargetUpdate tau nets)

/-- Component-wise `np.clip(x, -1.0, 1.0)` (train.py line 79). -/
def npClip (x lo hi : ℚ) : ℚ := min (max x lo) hi

namespace LogisticMixture

/-- Embeds `LogisticMixture.sample` (model.py lines 165-171): a draw from the
mixture distribution followed by `torch.clamp(x, -1, 1)`.  The mixture draw
itself is abstracted as the input; the clamp is the embedded code. -/
def sample (draw : ℚ) : ℚ := min (max draw (-1)) 1

end LogisticMixture

/-- Embeds `AgentTrainer.get_action` (train.py lines 68-79), per action component:
the actor output (abstracted as `actionValues`) gets Ornstein-Uhlenbeck noise
added when `greedy` is false, and the returned value is
`np.clip(action, -1.0, 1.0)`. -/
def get_action (actionValues noiseValues : List ℚ) (greedy : Bool) : List ℚ :=
  let action :=
    if greedy then actionValues
    else List.zipWith (fun a n => a + n) actionValues noiseValues
  action.map fun x => npClip x (-1) 1

/-- Component-wise `F.relu`. -/
def relu (x : ℚ) : ℚ := max x 0

/-- Dot product of a weight row with the input vector. -/
def dotProduct (w x : List ℚ) : ℚ := (List.zipWith (fun a b => a * b) w x).sum

/-- The `nn.Linear` row-wise affine map `W·x + b`. -/
def linearLayer (weight : List (List ℚ)) (bias : List ℚ) (x : List ℚ) :
    List ℚ :=
  List.zipWith (fun row bi => dotProduct row x + bi) weight bias

/-- The weight matrix and bias vector of one `nn.Linear` layer. -/
structure LinearParams where
  weight : List (List ℚ)
  bias : List ℚ

/-- The five fully connected layers declared by `Critic.__init__`
(model.py lines 209-218); `fc1`-`fc4` map to `layer_size` (1024) features and
`fc5` is the declared scalar output layer. -/
structure CriticParams where
  fc1 : LinearParams
  fc2 : LinearParams
  fc3 : LinearParams
  fc4 : LinearParams
  fc5 : LinearParams

namespace Critic

/-- Embeds `Critic.forward` (model.py lines 220-228): concatenates the inputs, runs
`relu(fc1)` through `relu(fc4)`, and returns `q_value` — `fc5` is never
applied. -/
def forward (p : CriticParams) (vision_embed proprioception action : List ℚ) :
    List ℚ :=
  let x0 := vision_embed ++ proprioception ++ action
  let x1 := (linearLayer p.fc1.weight p.fc1.bias x0).map relu
  let x2 := (linearLayer p.fc2.weight p.fc2.bias x1).map relu
  let x3 := (linearLayer p.fc3.weight p.fc3.bias x2).map relu
  let q_value := (linearLayer p.fc4.weight p.fc4.bias x3).map relu
  q_value

end Critic

/-- The TD target arithmetic of train.py line 138, per component:
`target = reward + gamma * next_q * (1 - done)`. -/
def tdTargetValue (reward gamma next_q done : ℚ) : ℚ :=
  reward + gamma * next_q * (1 - done)

/-- A concrete two-slot buffer with both priorities 1 (the state after two
stores at default priority), used to instantiate the importance-weight
theorem. -/
def c3Buffer : PrioritizedReplayBuffer Unit :=
  { capacity := 2
    alpha := 1
    beta := 1
    epsilon := 1/100
    data := fun _ => none
    priorities := fun _ => 1
    maxPriority := 1
    writeCursor := 2
    size := 2 }

/-- Concrete critic parameters with the default `layer_size = 1024` shape of
`fc4`, used to instantiate the critic-output theorem. -/
def c10Params : CriticParams :=
  { fc1 := ⟨[], []⟩
    fc2 := ⟨[], []⟩
    fc3 := ⟨[], []⟩
    fc4 := ⟨List.replicate 1024 [], List.replicate 1024 0⟩
    fc5 := ⟨[], []⟩ }

namespace PrioritizedReplayBuffer

@[simp] theorem storeAll_nil (buf : PrioritizedReplayBuffer α) :
    buf.storeAll ([] : List α) = buf := rfl

@[simp] theorem storeAll_cons (buf : PrioritizedReplayBuffer α) (t : α) (l : List α) :
    buf.storeAll (t :: l) = (buf.store t).storeAll l := rfl

theorem storeAll_append (buf : PrioritizedReplayBuffer α) (l₁ l₂ : List α) :
    buf.storeAll (l₁ ++ l₂) = (buf.storeAll l₁).storeAll l₂ :=
  List.foldl_append ..

@[simp] theorem store_capacity (buf : PrioritizedReplayBuffer α) (t : α) :
    (buf.store t).capacity = buf.capacity := rfl

@[simp] theorem store_writeCursor (buf : PrioritizedReplayBuffer α) (t : α) :
    (buf.store t).writeCursor = buf.writeCursor + 1 := rfl

@[simp] theorem store_size (buf : PrioritizedReplayBuffer α) (t : α) :
    (buf.store t).size = min (buf.size + 1) buf.capacity := rfl

theorem storeAll_capacity (buf : PrioritizedReplayBuffer α) (l : List α) :
    (buf.storeAll l).capacity = buf.capacity := by
  induction l generalizing buf with
  | nil => rfl
  | cons t l ih => simpa using ih (buf.store t)

theorem storeAll_writeCursor (buf : PrioritizedReplayBuffer α) (l : List α) :
    (buf.storeAll l).writeCursor = buf.writeCursor + l.length := by
  induction l generalizing buf with
  | nil => simp
  | cons t l ih =>
    rw [storeAll_cons, ih (buf.store t), store_writeCursor]
    simp [Nat.add_assoc, Nat.add_comm 1 l.length]

theorem storeAll_size (buf : PrioritizedReplayBuffer α) (l : List α)
    (h : buf.size ≤ buf.capacity) :
    (buf.storeAll l).size = min (buf.size + l.length) buf.capacity := by
  induction l generalizing buf with
  | nil => simpa using (Nat.min_eq_left h).symm
  | cons t l ih =>
    rw [storeAll_cons, ih (buf.store t) (by simp), store_size, store_capacity]
    simp only [List.length_cons]
    omega

/-- Slots at or beyond the capacity are never touched by `store`. -/
theorem storeAll_data_of_capacity_le (buf : PrioritizedReplayBuffer α)
    (l : List α) (s : Nat) (hc : 0 < buf.capacity) (hs : buf.capacity ≤ s) :
    (buf.storeAll l).data s = buf.data s := by
  induction l generalizing buf with
  | nil => rfl
  | cons t l ih =>
    rw [storeAll_cons, ih (buf.store t) (by simpa using hc) (by simpa using hs)]
    have hne : s ≠ buf.writeCursor % buf.capacity := by
      have := Nat.mod_lt buf.writeCursor hc
      omega
    simp [store, hne]

/-- Two indices within `capacity` of each other and both below `n` have
distinct write slots unless equal. -/
theorem mod_ne_of_recent (c i n : Nat) (_hc : 0 < c) (hin : i < n)
    (hrec : n + 1 - c ≤ i) : i % c ≠ n % c := by
  intro hmod
  have hdvd : c ∣ n - i := (Nat.modEq_iff_dvd' (Nat.le_of_lt hin)).mp hmod
  have hle : c ≤ n - i := Nat.le_of_dvd (by omega) hdvd
  omega

/-- After storing the whole list `l` into a fresh buffer, each of the most
recent `capacity` transitions sits at its slot `i % capacity`. -/
theorem storeAll_data_recent (c : Nat) (a b e : ℚ) (l : List α) (hc : 0 < c) :
    ∀ i (h : i < l.length), l.length - c ≤ i →
      ((init α c a b e).storeAll l).data (i % c) = some (l.get ⟨i, h⟩) := by
  induction l using List.reverseRecOn with
  | nil =>
    intro i h
    simp at h
  | append_singleton l t ih =>
    intro i h hrec
    rw [storeAll_append,
      show ((init α c a b e).storeAll l).storeAll [t] =
        ((init α c a b e).storeAll l).store t from rfl]
    have hcur : ((init α c a b e).storeAll l).writeCursor = l.length := by
      simpa [init] using storeAll_writeCursor (init α c a b e) l
    have hcap : ((init α c a b e).storeAll l).capacity = c :=
      storeAll_capacity (init α c a b e) l
    have hlen : (l ++ [t]).length = l.length + 1 := by simp
    rw [hlen] at hrec
    have hi1 : i < l.length + 1 := hlen ▸ h
    by_cases hi : i = l.length
    · subst hi
      have hwrite :
          (((init α c a b e).storeAll l).store t).data (l.length % c) = some t := by
        simp [store, hcur, hcap]
      rw [hwrite]
      have hget : (l ++ [t]).get ⟨l.length, h⟩ = t := by
        simp
      rw [hget]
    · have hlt : i < l.length := by omega
      have hne : i % c ≠ l.length % c :=
        mod_ne_of_recent c i l.length hc hlt (by omega)
      have hstep :
          (((init α c a b e).storeAll l).store t).data (i % c) =
            ((init α c a b e).storeAll l).data (i % c) := by
        simp [store, hcur, hcap, hne]
      rw [hstep, ih i hlt (by omega)]
      have hget : (l ++ [t]).get ⟨i, h⟩ = l.get ⟨i, hlt⟩ := by
        simp [List.getElem_append_left hlt]
      rw [hget]

@[simp] theorem setPriority_priorities_self (buf : PrioritizedReplayBuffer α)
    (slot : Nat) (p : ℚ) : (buf.setPriority slot p).priorities slot = p := by
  simp [setPriority]

@[simp] theorem setPriority_epsilon (buf : PrioritizedReplayBuffer α)
    (slot : Nat) (p : ℚ) : (buf.setPriority slot p).epsilon = buf.epsilon := rfl

theorem updatePriorities_cons (buf : PrioritizedReplayBuffer α)
    (s : Nat) (ss : List Nat) (e : ℚ) (es : List ℚ) :
    buf.updatePriorities (s :: ss) (e :: es)
      = (buf.setPriority s (|e| + buf.epsilon)).updatePriorities ss es := rfl

theorem updatePriorities_priorities_not_mem (buf : PrioritizedReplayBuffer α)
    (ss : List Nat) (es : List ℚ) (s : Nat) (hs : s ∉ ss) :
    (buf.updatePriorities ss es).priorities s = buf.priorities s := by
  induction ss generalizing es buf with
  | nil => rfl
  | cons a tl ih =>
    cases es with
    | nil => rfl
    | cons e etl =>
      simp only [List.mem_cons, not_or] at hs
      rw [updatePriorities_cons, ih _ _ hs.2]
      simp [setPriority, hs.1]

theorem updatePriorities_get (buf : PrioritizedReplayBuffer α)
    (ss : List Nat) (es : List ℚ) (hnd : ss.Nodup) :
    ∀ k (hk : k < ss.length) (hk2 : k < es.length),
      (buf.updatePriorities ss es).priorities (ss.get ⟨k, hk⟩)
        = |es.get ⟨k, hk2⟩| + buf.epsilon := by
  induction ss generalizing es buf with
  | nil =>
    intro k hk
    simp at hk
  | cons a tl ih =>
    intro k hk hk2
    cases es with
    | nil => simp at hk2
    | cons e etl =>
      cases k with
      | zero =>
        show (buf.updatePriorities (a :: tl) (e :: etl)).priorities a
          = |e| + buf.epsilon
        rw [updatePriorities_cons,
          updatePriorities_priorities_not_mem _ _ _ _ (List.nodup_cons.mp hnd).1]
        simp [setPriority]
      | succ k =>
        rw [updatePriorities_cons]
        exact ih (buf.setPriority a (|e| + buf.epsilon)) etl
          (List.Nodup.of_cons hnd) k (by simpa using hk) (by simpa using hk2)

theorem updatePriorities_map_neg (buf : PrioritizedReplayBuffer α)
    (ss : List Nat) (es : List ℚ) :
    buf.updatePriorities ss (es.map fun x => -x) = buf.updatePriorities ss es := by
  induction ss generalizing es buf with
  | nil => rfl
  | cons a tl ih =>
    cases es with
    | nil => rfl
    | cons e etl =>
      rw [List.map_cons, updatePriorities_cons, updatePriorities_cons, abs_neg,
        ih]

theorem mem_le_foldrMax (l : List ℝ) (x : ℝ) (hx : x ∈ l) : x ≤ foldrMax l := by
  induction l with
  | nil => simp at hx
  | cons a t ih =>
    rcases List.mem_cons.mp hx with h | h
    · subst h
      exact le_max_left _ _
    · exact le_trans (ih h) (le_max_right _ _)

theorem foldrMax_map_div (l : List ℝ) (M : ℝ) (hM : 0 ≤ M) :
    foldrMax (l.map fun x => x / M) = foldrMax l / M := by
  induction l with
  | nil => simp [foldrMax]
  | cons a t ih =>
    simp only [List.map_cons, foldrMax, List.foldr_cons] at ih ⊢
    rw [ih, max_div_div_right hM]

theorem sum_pos_of_mem (l : List ℝ) (hnn : ∀ y ∈ l, 0 ≤ y) (x : ℝ)
    (hx : x ∈ l) (hpos : 0 < x) : 0 < l.sum := by
  induction l with
  | nil => simp at hx
  | cons a t ih =>
    rw [List.sum_cons]
    rcases List.mem_cons.mp hx with h | h
    · subst h
      have ht : 0 ≤ t.sum :=
        List.sum_nonneg fun y hy => hnn y (List.mem_cons_of_mem _ hy)
      linarith
    · have ha : 0 ≤ a := hnn a (List.mem_cons_self a t)
      have ht := ih (fun y hy => hnn y (List.mem_cons_of_mem _ hy)) h
      linarith

theorem total_pos (buf : PrioritizedReplayBuffer α)
    (hnn : ∀ s, 0 ≤ buf.priorities s) (s : Nat) (hs : s < buf.capacity)
    (hp : 0 < buf.priorities s) : 0 < buf.total := by
  apply sum_pos_of_mem _ ?_ (buf.leafMass s)
    (List.mem_map_of_mem _ (List.mem_range.mpr hs))
    (Real.rpow_pos_of_pos (by exact_mod_cast hp) _)
  intro y hy
  rcases List.mem_map.mp hy with ⟨u, _, rfl⟩
  exact Real.rpow_nonneg (by exact_mod_cast hnn u) _

theorem rawWeight_pos (buf : PrioritizedReplayBuffer α) (s : Nat)
    (hsize : 0 < buf.size) (hnn : ∀ u, 0 ≤ buf.priorities u)
    (hp : 0 < buf.priorities s) (hs : s < buf.capacity) :
    0 < buf.rawWeight s := by
  have htot : 0 < buf.total := total_pos buf hnn s hs hp
  have hleaf : 0 < buf.leafMass s :=
    Real.rpow_pos_of_pos (by exact_mod_cast hp) _
  have hbase : 0 < (buf.size : ℝ) * buf.samplingProb s :=
    mul_pos (by exact_mod_cast hsize) (div_pos hleaf htot)
  exact Real.rpow_pos_of_pos hbase _

/-- Normalizing a nonempty list of positive reals by its own maximum yields
values in `(0, 1]` whose maximum is exactly 1. -/
theorem normalizeMax_bounds (l : List ℝ) (hpos : ∀ x ∈ l, 0 < x)
    (hne : l ≠ []) :
    (∀ w ∈ l.map fun x => x / foldrMax l, 0 < w ∧ w ≤ 1)
  ∧ foldrMax (l.map fun x => x / foldrMax l) = 1 := by
  obtain ⟨a, ha⟩ := List.exists_mem_of_ne_nil l hne
  have hM : 0 < foldrMax l :=
    lt_of_lt_of_le (hpos a ha) (mem_le_foldrMax l a ha)
  constructor
  · intro w hw
    rcases List.mem_map.mp hw with ⟨x, hx, rfl⟩
    exact ⟨div_pos (hpos x hx) hM,
      (div_le_one hM).mpr (mem_le_foldrMax l x hx)⟩
  · rw [foldrMax_map_div l _ (le_of_lt hM), div_self (ne_of_gt hM)]

end PrioritizedReplayBuffer

open PrioritizedReplayBuffer

/-- C1: for every `(slot, error)` pair passed to `update_priorities`, the
priority stored for that slot afterwards equals `|error| + ε`; in particular
the raw signed TD errors supplied by the training step
(`(target_q - current_q)` at train.py line 159) enter only through their
absolute value — negating every error leaves the updated buffer unchanged, so
a raw signed value is never stored as a priority. -/
theorem claim_C1_priority_update (buf : PrioritizedReplayBuffer α)
    (slotIds : List Nat) (tdErrors : List ℚ) (hnd : slotIds.Nodup)
    (hlen : slotIds.length = tdErrors.length) :
    (∀ k (hk : k < slotIds.length),
        (buf.updatePriorities slotIds tdErrors).priorities
            (slotIds.get ⟨k, hk⟩)
          = |tdErrors.get ⟨k, hlen ▸ hk⟩| + buf.epsilon)
  ∧ buf.updatePriorities slotIds (tdErrors.map fun x => -x)
      = buf.updatePriorities slotIds tdErrors :=
  ⟨fun k hk => updatePriorities_get buf slotIds tdErrors hnd k hk (hlen ▸ hk),
   updatePriorities_map_neg buf slotIds tdErrors⟩

/-- Witness for C1 at slots `[0, 2]` with raw signed TD errors `[-3, 5]` on a
capacity-4 buffer with `ε = 1/100`. -/
theorem claim_C1_priority_update_witness :
    (([0, 2] : List Nat).Nodup
      ∧ ([0, 2] : List Nat).length = ([-3, 5] : List ℚ).length)
  ∧ ((∀ k (hk : k < ([0, 2] : List Nat).length),
        ((init ℚ 4 1 1 (1/100)).updatePriorities [0, 2] [-3, 5]).priorities
            (([0, 2] : List Nat).get ⟨k, hk⟩)
          = |([-3, 5] : List ℚ).get ⟨k, hk⟩| + (init ℚ 4 1 1 (1/100)).epsilon)
      ∧ (init ℚ 4 1 1 (1/100)).updatePriorities [0, 2]
            (([-3, 5] : List ℚ).map fun x => -x)
          = (init ℚ 4 1 1 (1/100)).updatePriorities [0, 2] [-3, 5]) :=
  ⟨⟨by decide, by decide⟩,
   claim_C1_priority_update (init ℚ 4 1 1 (1/100)) [0, 2] [-3, 5]
     (by decide) (by decide)⟩

/-- C2: for capacity `c > 0` and any sequence of `N > c` stores into a fresh
buffer, afterwards `size = c` exactly, the write cursor has advanced
monotonically to `N` (each store wrote slot `cursor % c`), each of the most
recent `c` transitions is retrievable at its slot `i % c`, and no slot outside
`[0, c)` holds data — the buffer holds exactly the last `c` transitions, the
oldest having been overwritten first. -/
theorem claim_C2_capacity_invariant (c : Nat) (a b e : ℚ) (l : List α)
    (hc : 0 < c) (hN : c < l.length) :
    (((init α c a b e).storeAll l).size = c)
  ∧ (((init α c a b e).storeAll l).writeCursor = l.length)
  ∧ (∀ i (h : i < l.length), l.length - c ≤ i →
        ((init α c a b e).storeAll l).data (i % c) = some (l.get ⟨i, h⟩))
  ∧ (∀ s, c ≤ s → ((init α c a b e).storeAll l).data s = none) := by
  refine ⟨?_, ?_, storeAll_data_recent c a b e l hc, ?_⟩
  · rw [storeAll_size (init α c a b e) l (by simp [init])]
    simp only [init]
    omega
  · simpa [init] using storeAll_writeCursor (init α c a b e) l
  · intro s hs
    exact storeAll_data_of_capacity_le (init α c a b e) l s hc hs

/-- Witness for C2: capacity 2, three stores; the buffer retains the last two
transitions and slots `≥ 2` stay empty. -/
theorem claim_C2_capacity_invariant_witness :
    (0 < 2 ∧ 2 < ([5, 6, 7] : List ℚ).length)
  ∧ ((((init ℚ 2 1 1 1).storeAll [5, 6, 7]).size = 2)
      ∧ ((((init ℚ 2 1 1 1).storeAll [5, 6, 7]).writeCursor
            = ([5, 6, 7] : List ℚ).length))
      ∧ (∀ i (h : i < ([5, 6, 7] : List ℚ).length),
            ([5, 6, 7] : List ℚ).length - 2 ≤ i →
            ((init ℚ 2 1 1 1).storeAll [5, 6, 7]).data (i % 2)
              = some (([5, 6, 7] : List ℚ).get ⟨i, h⟩))
      ∧ (∀ s, 2 ≤ s → ((init ℚ 2 1 1 1).storeAll [5, 6, 7]).data s = none)) :=
  ⟨⟨by decide, by decide⟩,
   claim_C2_capacity_invariant 2 1 1 1 [5, 6, 7] (by decide) (by decide)⟩

/-- C3: every importance weight of a sampled batch satisfies `0 < w ≤ 1` and
the maximum weight within the batch is exactly 1, where
`w_i = (N · P(i))^(-beta)` normalized by the batch's own maximum, with
`P(i) = priority[i]^alpha / total()` and `N = size`. -/
theorem claim_C3_importance_weights (buf : PrioritizedReplayBuffer α)
    (slots : List Nat) (hsize : 0 < buf.size)
    (hnn : ∀ s, 0 ≤ buf.priorities s)
    (hpos : ∀ s ∈ slots, 0 < buf.priorities s)
    (hcap : ∀ s ∈ slots, s < buf.capacity) (hne : slots ≠ []) :
    (∀ w ∈ buf.importanceWeights slots, 0 < w ∧ w ≤ 1)
  ∧ foldrMax (buf.importanceWeights slots) = 1 := by
  have hiw : buf.importanceWeights slots
      = (slots.map buf.rawWeight).map
          fun x => x / foldrMax (slots.map buf.rawWeight) := by
    simp [importanceWeights, List.map_map, Function.comp]
  have hposL : ∀ x ∈ slots.map buf.rawWeight, 0 < x := by
    intro x hx
    rcases List.mem_map.mp hx with ⟨s, hs, rfl⟩
    exact rawWeight_pos buf s hsize hnn (hpos s hs) (hcap s hs)
  have hneL : slots.map buf.rawWeight ≠ [] := by
    cases slots with
    | nil => exact absurd rfl hne
    | cons a t => simp
  rw [hiw]
  exact normalizeMax_bounds (slots.map buf.rawWeight) hposL hneL

/-- Witness for C3: the two-slot unit-priority buffer with batch `[0, 1]`. -/
theorem claim_C3_importance_weights_witness :
    (0 < c3Buffer.size
      ∧ (∀ s ∈ ([0, 1] : List Nat), 0 < c3Buffer.priorities s)
      ∧ (∀ s ∈ ([0, 1] : List Nat), s < c3Buffer.capacity)
      ∧ ([0, 1] : List Nat) ≠ [])
  ∧ ((∀ w ∈ c3Buffer.importanceWeights [0, 1], 0 < w ∧ w ≤ 1)
      ∧ foldrMax (c3Buffer.importanceWeights [0, 1]) = 1) :=
  ⟨⟨by decide, by decide, by decide, by decide⟩,
   claim_C3_importance_weights c3Buffer [0, 1] (by decide)
     (fun _ => zero_le_one) (by decide) (by decide) (by decide)⟩

/-- C4: `fine_tune` raises before completing a training step on every input
and never returns normally: `td_target` calls `get_action(goal, vision)`,
omitting the required `proprioception` parameter, so the call raises
`TypeError`; moreover `torch.nn.MSELoss(current_q, target_q)` builds a loss
module rather than a loss value, so even `critic_loss.backward()` could not
run — consequently no critic or actor parameter update of `fine_tune` ever
takes effect. -/
theorem claim_C4_fine_tune_raises (nets : TrainerNets) (tau : ℚ) :
    fineTune nets tau = Except.error typeErrorMissingArg
  ∧ (∀ q1 q2 : PyVal, backwardOn (mseLossCtor q1 q2)
      = Except.error backwardOnModuleError) :=
  ⟨rfl, fun _ _ => rfl⟩

/-- C5 counterexample: at the only call site (train.py line 150)
`sample_batch` is invoked with zero arguments — no `batch_size` — and its
result is unpacked into nine, not seven, parallel sequences. -/
theorem claim_C5_counterexample :
    fineTuneSampleBatchTargets.length = 9
  ∧ fineTuneSampleBatchTargets.length ≠ 7
  ∧ fineTuneSampleBatchArgCount = 0 := by decide

/-- C5 (amended): `sample_batch` is invoked without an explicit `batch_size`
argument and returns nine parallel sequences — `vision, proprioception,
next_vision, next_proprioception, action, reward, done, weights, indices`,
the states being split into vision and proprioception — each of length equal
to the number of draws, with the slot ids included so a later priority update
can reference the sampled entries. -/
theorem claim_C5_nine_parallel
    (buf : PrioritizedReplayBuffer (Transition V P A)) (slots : List Nat) :
    ((buf.sampleBatch slots).vision.length = slots.length)
  ∧ ((buf.sampleBatch slots).proprioception.length = slots.length)
  ∧ ((buf.sampleBatch slots).next_vision.length = slots.length)
  ∧ ((buf.sampleBatch slots).next_proprioception.length = slots.length)
  ∧ ((buf.sampleBatch slots).action.length = slots.length)
  ∧ ((buf.sampleBatch slots).reward.length = slots.length)
  ∧ ((buf.sampleBatch slots).done.length = slots.length)
  ∧ ((buf.sampleBatch slots).weights.length = slots.length)
  ∧ (buf.sampleBatch slots).indices = slots := by
  refine ⟨?_, ?_, ?_, ?_, ?_, ?_, ?_, ?_, rfl⟩ <;>
    simp [PrioritizedReplayBuffer.sampleBatch,
      PrioritizedReplayBuffer.importanceWeights]

/-- C6 counterexample: the `store` call in `init_buffer` (train.py line 145)
passes seven arguments, not the five fields `(state, action, reward,
next_state, done)`. -/
theorem claim_C6_counterexample :
    initBufferStoreArgs.length = 7 ∧ initBufferStoreArgs.length ≠ 5 := by
  decide

/-- C6 (amended): `store` is invoked through `init_buffer` with the seven
fields `(vision, proprioception, action, reward, next_vision,
next_proprioception, done)` — `state` and `next_state` each split in two — as
one transition record; it writes the transition at slot
`write_cursor mod capacity`, assigns it the current `max_priority()` (or the
default 1.0 when the buffer is empty), advances the cursor, caps the size at
capacity, and returns only the updated buffer state. -/
theorem claim_C6_store_behavior
    (buf : PrioritizedReplayBuffer (Transition V P A)) (v : V) (p : P) (a : A)
    (r : ℚ) (nv : V) (np : P) (d : Bool) :
    ((init_buffer buf v p a r nv np d).data (buf.writeCursor % buf.capacity)
        = some ⟨v, p, a, r, nv, np, d⟩)
  ∧ ((init_buffer buf v p a r nv np d).priorities
        (buf.writeCursor % buf.capacity)
        = if buf.size = 0 then 1 else buf.maxPriority)
  ∧ ((init_buffer buf v p a r nv np d).writeCursor = buf.writeCursor + 1)
  ∧ ((init_buffer buf v p a r nv np d).size
        = min (buf.size + 1) buf.capacity) := by
  refine ⟨?_, ?_, rfl, rfl⟩ <;> simp [init_buffer, PrioritizedReplayBuffer.store]

/-- C7 counterexample: the construction at train.py line 40 supplies only
`alpha=0.6` and `beta=0.4`; `capacity` and `epsilon` are not provided, so the
claim that all four configuration values are explicitly supplied with no
hidden defaults fails at this concrete call. -/
theorem claim_C7_counterexample :
    agentTrainerBufferCtorCall.capacity = none
  ∧ agentTrainerBufferCtorCall.epsilon = none
  ∧ agentTrainerBufferCtorCall.alpha = some (3/5)
  ∧ agentTrainerBufferCtorCall.beta = some (2/5) :=
  ⟨rfl, rfl, rfl, rfl⟩

/-- C7 (amended): the buffer construction at agent-construction time supplies
only `alpha = 0.6` and `beta = 0.4` explicitly; `capacity` and `epsilon` are
omitted and take whatever default values the (absent) constructor declares —
the resolved buffer's capacity and epsilon equal those hidden defaults for
every possible choice of them. -/
theorem claim_C7_ctor_defaults (α : Type) (capacityDefault : Nat)
    (alphaDefault betaDefault epsilonDefault : ℚ) :
    ((agentTrainerBufferCtorCall.resolve α capacityDefault alphaDefault
        betaDefault epsilonDefault).alpha = 3/5)
  ∧ ((agentTrainerBufferCtorCall.resolve α capacityDefault alphaDefault
        betaDefault epsilonDefault).beta = 2/5)
  ∧ ((agentTrainerBufferCtorCall.resolve α capacityDefault alphaDefault
        betaDefault epsilonDefault).capacity = capacityDefault)
  ∧ ((agentTrainerBufferCtorCall.resolve α capacityDefault alphaDefault
        betaDefault epsilonDefault).epsilon = epsilonDefault) :=
  ⟨rfl, rfl, rfl, rfl⟩

/-- C8: after the `fine_tune` target-network update, every target-network
parameter equals `tau * source + (1 - tau) * previous_target`, element-wise
over the zipped parameter collections, for both the target actor and the
target critic; the shapes are preserved. -/
theorem claim_C8_polyak_update (tau : ℚ) (nets : TrainerNets)
    (hA : nets.targetActorParams.length = nets.actorParams.length)
    (hC : nets.targetCriticParams.length = nets.criticParams.length) :
    ((fineTuneTargetUpdate tau nets).targetActorParams.length
        = nets.targetActorParams.length)
  ∧ ((fineTuneTargetUpdate tau nets).targetCriticParams.length
        = nets.targetCriticParams.length)
  ∧ (∀ i (hiT : i < nets.targetActorParams.length),
        (fineTuneTargetUpdate tau nets).targetActorParams[i]?
          = some (tau * nets.actorParams.get ⟨i, hA ▸ hiT⟩
              + (1 - tau) * nets.targetActorParams.get ⟨i, hiT⟩))
  ∧ (∀ i (hiT : i < nets.targetCriticParams.length),
        (fineTuneTargetUpdate tau nets).targetCriticParams[i]?
          = some (tau * nets.criticParams.get ⟨i, hC ▸ hiT⟩
              + (1 - tau) * nets.targetCriticParams.get ⟨i, hiT⟩)) := by
  refine ⟨?_, ?_, ?_, ?_⟩
  · simp only [fineTuneTargetUpdate, softUpdate, List.length_zipWith]
    omega
  · simp only [fineTuneTargetUpdate, softUpdate, List.length_zipWith]
    omega
  · intro i hiT
    have hz : i < (List.zipWith (fun t p => tau * p + (1 - tau) * t)
        nets.targetActorParams nets.actorParams).length := by
      simp only [List.length_zipWith]
      omega
    show (List.zipWith (fun t p => tau * p + (1 - tau) * t)
        nets.targetActorParams nets.actorParams)[i]? = _
    rw [List.getElem?_eq_getElem hz, List.getElem_zipWith]
    simp
  · intro i hiT
    have hz : i < (List.zipWith (fun t p => tau * p + (1 - tau) * t)
        nets.targetCriticParams nets.criticParams).length := by
      simp only [List.length_zipWith]
      omega
    show (List.zipWith (fun t p => tau * p + (1 - tau) * t)
        nets.targetCriticParams nets.criticParams)[i]? = _
    rw [List.getElem?_eq_getElem hz, List.getElem_zipWith]
    simp

/-- Witness for C8 with `tau = 1/2` and concrete two-element parameter
vectors for each of the four networks. -/
theorem claim_C8_polyak_update_witness :
    ((([5, 6] : List ℚ).length = ([1, 2] : List ℚ).length)
      ∧ (([7, 8] : List ℚ).length = ([3, 4] : List ℚ).length))
  ∧ (((fineTuneTargetUpdate (1/2) ⟨[1, 2], [3, 4], [5, 6], [7, 8]⟩).targetActorParams.length
        = ([5, 6] : List ℚ).length)
      ∧ ((fineTuneTargetUpdate (1/2) ⟨[1, 2], [3, 4], [5, 6], [7, 8]⟩).targetCriticParams.length
          = ([7, 8] : List ℚ).length)
      ∧ (∀ i (hiT : i < ([5, 6] : List ℚ).length),
          (fineTuneTargetUpdate (1/2) ⟨[1, 2], [3, 4], [5, 6], [7, 8]⟩).targetActorParams[i]?
            = some ((1/2) * ([1, 2] : List ℚ).get ⟨i, hiT⟩
                + (1 - 1/2) * ([5, 6] : List ℚ).get ⟨i, hiT⟩))
      ∧ (∀ i (hiT : i < ([7, 8] : List ℚ).length),
          (fineTuneTargetUpdate (1/2) ⟨[1, 2], [3, 4], [5, 6], [7, 8]⟩).targetCriticParams[i]?
            = some ((1/2) * ([3, 4] : List ℚ).get ⟨i, hiT⟩
                + (1 - 1/2) * ([7, 8] : List ℚ).get ⟨i, hiT⟩))) :=
  ⟨⟨by decide, by decide⟩,
   claim_C8_polyak_update (1/2) ⟨[1, 2], [3, 4], [5, 6], [7, 8]⟩
     (by decide) (by decide)⟩

/-- C9: whenever `get_action` returns, every component of the returned array
lies in `[-1, 1]`, with or without exploration noise (`np.clip` is the last
operation); and the mixture-of-logistics sample itself is clamped to `[-1, 1]`
inside `LogisticMixture.sample`, before any noise is applied. -/
theorem claim_C9_action_clip (actionValues noiseValues : List ℚ)
    (greedy : Bool) :
    (∀ y ∈ get_action actionValues noiseValues greedy, -1 ≤ y ∧ y ≤ 1)
  ∧ (∀ x : ℚ, -1 ≤ LogisticMixture.sample x ∧ LogisticMixture.sample x ≤ 1)
  ∧ (∀ x : ℚ, LogisticMixture.sample x = npClip x (-1) 1) := by
  refine ⟨?_, ?_, fun x => rfl⟩
  · intro y hy
    simp only [get_action] at hy
    rcases List.mem_map.mp hy with ⟨x, _, rfl⟩
    exact ⟨le_min (le_max_right _ _) (by norm_num), min_le_right _ _⟩
  · intro x
    exact ⟨le_min (le_max_right _ _) (by norm_num), min_le_right _ _⟩

/-- Witness for C9: a non-greedy call with action `[2, -3]` and noise
`[1, 1]` returns `[1, -1]`; the component 1 is clipped into `[-1, 1]`. -/
theorem claim_C9_action_clip_witness :
    ((1 : ℚ) ∈ get_action [2, -3] [1, 1] false)
  ∧ (-1 ≤ (1 : ℚ) ∧ (1 : ℚ) ≤ 1) := by
  have h : get_action [2, -3] [1, 1] false = [1, -1] := by
    simp [get_action, npClip]
    norm_num [min_def, max_def]
  have hmem : (1 : ℚ) ∈ get_action [2, -3] [1, 1] false := by
    rw [h]
    exact List.mem_cons_self 1 _
  exact ⟨hmem, (claim_C9_action_clip [2, -3] [1, 1] false).1 1 hmem⟩

/-- C10: `Critic.forward` returns an element-wise non-negative vector (its
last operation is a ReLU on `fc4`'s output) of width `layer_size` (1024)
rather than 1 — the declared scalar layer `fc5` is never applied — and every
TD target built from such a critic output adds a non-negative bootstrapped
term for a non-terminal transition. -/
theorem claim_C10_critic_output (p : CriticParams)
    (vision_embed proprioception action : List ℚ)
    (hW : p.fc4.weight.length = 1024) (hb : p.fc4.bias.length = 1024) :
    (∀ y ∈ Critic.forward p vision_embed proprioception action, 0 ≤ y)
  ∧ (Critic.forward p vision_embed proprioception action).length = 1024
  ∧ (Critic.forward p vision_embed proprioception action).length ≠ 1
  ∧ (∀ q : LinearParams,
        Critic.forward { p with fc5 := q } vision_embed proprioception action
          = Critic.forward p vision_embed proprioception action)
  ∧ (∀ gamma next_q reward : ℚ,
        next_q ∈ Critic.forward p vision_embed proprioception action →
        0 ≤ gamma → reward ≤ tdTargetValue reward gamma next_q 0) := by
  have hnn : ∀ y ∈ Critic.forward p vision_embed proprioception action,
      0 ≤ y := by
    intro y hy
    simp only [Critic.forward] at hy
    rcases List.mem_map.mp hy with ⟨x, _, rfl⟩
    exact le_max_right _ _
  have hlen : (Critic.forward p vision_embed proprioception action).length
      = 1024 := by
    simp only [Critic.forward, linearLayer, List.length_map,
      List.length_zipWith]
    omega
  refine ⟨hnn, hlen, by omega, fun q => rfl, ?_⟩
  intro gamma next_q reward hq hgamma
  have hq0 : 0 ≤ next_q := hnn next_q hq
  have hterm : 0 ≤ gamma * next_q * (1 - 0) := by
    have := mul_nonneg hgamma hq0
    simpa using this
  simp only [tdTargetValue]
  linarith

/-- Witness for C10 with the 1024-row `fc4` parameters and empty inputs. -/
theorem claim_C10_critic_output_witness :
    (c10Params.fc4.weight.length = 1024 ∧ c10Params.fc4.bias.length = 1024)
  ∧ ((∀ y ∈ Critic.forward c10Params [] [] [], 0 ≤ y)
      ∧ (Critic.forward c10Params [] [] []).length = 1024
      ∧ (Critic.forward c10Params [] [] []).length ≠ 1
      ∧ (∀ q : LinearParams,
            Critic.forward { c10Params with fc5 := q } [] [] []
              = Critic.forward c10Params [] [] [])
      ∧ (∀ gamma next_q reward : ℚ,
            next_q ∈ Critic.forward c10Params [] [] [] →
            0 ≤ gamma → reward ≤ tdTargetValue reward gamma next_q 0)) :=
  ⟨⟨List.length_replicate _ _, List.length_replicate _ _⟩,
   claim_C10_critic_output c10Params [] [] []
     (List.length_replicate _ _) (List.length_replicate _ _)⟩

end RoboticsLearning
